import Mathlib

/-!
Shallow embedding of the log-revolve routing-and-rotation engine
(source: src/main.rs) together with theorems settling the frozen claims.

Modelling conventions:
- Wall-clock instants are calendar records at one-second resolution; the
  chrono subtraction of two instants is modelled through a total-seconds
  conversion for the Gregorian calendar (years from 1 onward).
- The filesystem is a map from path strings to file contents; strings
  stand for byte sequences.
- Fallible I/O is driven by an explicit environment oracle saying which
  paths fail to open and which paths fail on write, so that error paths
  of the source are first-class.
- Rust methods on mutable receivers become functions returning the
  result together with the updated state; an early return through the
  question-mark operator keeps the mutations performed so far, exactly
  as in the source.
-/

namespace LogRevolve

/-- A wall-clock instant, at one-second resolution, in the local timezone. -/
structure DateTime where
  year : Nat
  month : Nat
  day : Nat
  hour : Nat
  minute : Nat
  second : Nat
deriving DecidableEq

/-- Gregorian leap-year rule. -/
def isLeapYear (y : Nat) : Bool :=
  (y % 4 == 0 && y % 100 != 0) || y % 400 == 0

/-- Days in the months strictly before month m of a common year (m is 1-based). -/
def cumDaysBeforeMonth (m : Nat) : Nat :=
  match m with
  | 0 => 0
  | 1 => 0
  | 2 => 31
  | 3 => 59
  | 4 => 90
  | 5 => 120
  | 6 => 151
  | 7 => 181
  | 8 => 212
  | 9 => 243
  | 10 => 273
  | 11 => 304
  | _ => 334

/-- Complete days elapsed from 0001-01-01 to the given date. -/
def daysSinceEpoch (t : DateTime) : Nat :=
  365 * (t.year - 1) + ((t.year - 1) / 4 - (t.year - 1) / 100 + (t.year - 1) / 400)
    + cumDaysBeforeMonth t.month
    + (if 3 ≤ t.month then (if isLeapYear t.year then 1 else 0) else 0)
    + (t.day - 1)

/-- Seconds elapsed from the epoch to the given instant; the difference of
two such values models the chrono subtraction of two local instants. -/
def toSeconds (t : DateTime) : Nat :=
  daysSinceEpoch t * 86400 + t.hour * 3600 + t.minute * 60 + t.second

/-- Chronological comparison of the date parts, as chrono compares the
values produced by the date method: true when a falls on a strictly later
calendar day than b. -/
def dateGt (a b : DateTime) : Bool :=
  decide (b.year < a.year) ||
    (decide (b.year = a.year) &&
      (decide (b.month < a.month) ||
        (decide (b.month = a.month) && decide (b.day < a.day))))

/-- The spec-side reading of the same date comparison, as a proposition. -/
def DateLater (a b : DateTime) : Prop :=
  b.year < a.year ∨
    (b.year = a.year ∧ (b.month < a.month ∨ (b.month = a.month ∧ b.day < a.day)))

/-- Source: FileHandle::get_hourly_aligned_date. The clock reading is an
explicit argument; the function zeroes minutes and seconds. -/
def get_hourly_aligned_date (now : DateTime) : DateTime :=
  { now with minute := 0, second := 0 }

/-- Unicode white-space property, the set stripped by the Rust trim_end. -/
def isRustWhitespace (c : Char) : Bool :=
  let n := c.toNat
  (0x09 ≤ n && n ≤ 0x0D) || n == 0x20 || n == 0x85 || n == 0xA0 ||
    n == 0x1680 || (0x2000 ≤ n && n ≤ 0x200A) || n == 0x2028 || n == 0x2029 ||
    n == 0x202F || n == 0x205F || n == 0x3000

/-- Source: str::trim_end — the input without its trailing white-space. -/
def trim_end (s : String) : String :=
  String.mk ((s.data.reverse.dropWhile isRustWhitespace).reverse)

/-- Splitting helper: accumulates the current field (reversed) while
scanning the character list. -/
def splitCommaAux : List Char → List Char → List String
  | [], acc => [String.mk acc.reverse]
  | c :: rest, acc =>
      if c = ',' then String.mk acc.reverse :: splitCommaAux rest []
      else splitCommaAux rest (c :: acc)

/-- Source: str::split with a comma pattern, collected to a vector.
The empty string yields one empty field, as in Rust. -/
def splitComma (s : String) : List String :=
  splitCommaAux s.data []

/-- Decimal rendering padded to two digits, as the chrono format codes
for month, day, hour, minute and second produce. -/
def pad2 (n : Nat) : String :=
  if n < 10 then "0" ++ toString n else toString n

/-- Decimal rendering padded to four digits, as the chrono year code produces. -/
def pad4 (n : Nat) : String :=
  if n < 10 then "000" ++ toString n
  else if n < 100 then "00" ++ toString n
  else if n < 1000 then "0" ++ toString n
  else toString n

/-- The chrono format string used by the source, rendered for a given instant. -/
def formatTimestamp (t : DateTime) : String :=
  pad4 t.year ++ "-" ++ pad2 t.month ++ "-" ++ pad2 t.day ++ "-" ++
    pad2 t.hour ++ "-" ++ pad2 t.minute ++ "-" ++ pad2 t.second

/-- True when the string starts with a slash (an absolute path component). -/
def startsWithSlash (s : String) : Bool :=
  match s.data with
  | [] => false
  | c :: _ => c = '/'

/-- True when the string ends with a slash. -/
def endsWithSlash (s : String) : Bool :=
  match s.data.reverse with
  | [] => false
  | c :: _ => c = '/'

/-- PathBuf push semantics for the two components pushed by the source:
an absolute second component replaces the first; otherwise the two are
joined with a separator unless one is already present or the first is empty. -/
def pathJoin (dir name : String) : String :=
  if startsWithSlash name then name
  else if dir = "" then name
  else if endsWithSlash dir then dir ++ name
  else dir ++ "/" ++ name

/-- Source: FileHandle::generate_file_path. The conversion from PathBuf
back to a string cannot fail for components built from strings, so the
error branch of the source is unreachable and the model is total. -/
def generate_file_path (log_dir channel_name : String) (now : DateTime) : String :=
  pathJoin log_dir (channel_name ++ "_" ++ formatTimestamp now ++ ".log")

/-- The filesystem: path to file contents, absent paths mapped to none. -/
def FS : Type := String → Option String

/-- The empty filesystem. -/
def fsEmpty : FS := fun _ => none

/-- I/O oracle: which paths fail to open, and which fail on write. -/
structure Env where
  openFails : String → Bool
  writeFails : String → Bool

/-- The oracle under which every open and every write succeeds. -/
def envOk : Env :=
  { openFails := fun _ => false, writeFails := fun _ => false }

/-- Effect on the filesystem of an open with create true, truncate false
and append true: an absent file comes into being empty, an existing file
keeps its bytes. -/
def openFileFS (fs : FS) (path : String) : FS :=
  fun p => if p = path then some ((fs path).getD "") else fs p

/-- Effect on the filesystem of write_all on a handle open in append
mode at the given path. -/
def writeAll (fs : FS) (path : String) (data : String) : FS :=
  fun p => if p = path then some ((fs path).getD "" ++ data) else fs p

/-- Source: the FileHandle struct. The handle to the open file is
identified by the path it was opened at. -/
structure FileHandle where
  file_name : String
  log_dir : String
  last_reopened : DateTime
  current_path : String
deriving DecidableEq

/-- Source: FileHandle::open_file. Opens with create true, truncate
false, append true; the oracle decides failure. -/
def FileHandle.open_file (env : Env) (fs : FS) (path : String) :
    (Except Unit String) × FS :=
  if env.openFails path then (.error (), fs)
  else (.ok path, openFileFS fs path)

/-- Source: FileHandle::create. Note two facts taken directly from the
source: the field named log_dir receives the full file path, not the
directory argument, and last_reopened receives the raw clock reading,
not the hour-aligned one. -/
def FileHandle.create (env : Env) (fs : FS) (log_dir channel_name : String)
    (now : DateTime) : (Except Unit FileHandle) × FS :=
  let aligned := get_hourly_aligned_date now
  let path := generate_file_path log_dir channel_name aligned
  match FileHandle.open_file env fs path with
  | (.error e, fs1) => (.error e, fs1)
  | (.ok file, fs1) =>
      (.ok { file_name := channel_name
             log_dir := path
             last_reopened := now
             current_path := file }, fs1)

/-- Source: FileHandle::new_file_needed, with the current clock reading
as an explicit argument. -/
def FileHandle.new_file_needed (h : FileHandle) (now : DateTime) : Bool :=
  let date_is_after := dateGt now h.last_reopened
  let hour_is_after := decide (h.last_reopened.hour < now.hour)
  if date_is_after && hour_is_after then true
  else
    let more_than_hour_passed :=
      decide ((3600 : Int) < (toSeconds now : Int) - (toSeconds h.last_reopened : Int))
    if more_than_hour_passed then true else false

/-- Source: FileHandle::update_current_file. On a rotation whose open
fails the early return keeps the already-updated last_reopened field,
exactly as the mutation order of the source does. -/
def FileHandle.update_current_file (env : Env) (fs : FS) (h : FileHandle)
    (now : DateTime) : (Except Unit Unit) × FS × FileHandle :=
  if h.new_file_needed now then
    let aligned := get_hourly_aligned_date now
    let h1 := { h with last_reopened := aligned }
    let path := generate_file_path h1.log_dir h1.file_name aligned
    match FileHandle.open_file env fs path with
    | (.error e, fs1) => (.error e, fs1, h1)
    | (.ok file, fs1) => (.ok (), fs1, { h1 with current_path := file })
  else (.ok (), fs, h)

/-- Source: FileHandle::write_line. -/
def FileHandle.write_line (env : Env) (fs : FS) (h : FileHandle)
    (now : DateTime) (line : String) : (Except Unit Unit) × FS × FileHandle :=
  match FileHandle.update_current_file env fs h now with
  | (.error e, fs1, h1) => (.error e, fs1, h1)
  | (.ok _, fs1, h1) =>
      if env.writeFails h1.current_path then (.error (), fs1, h1)
      else (.ok (), writeAll fs1 h1.current_path line, h1)

/-- Association-list lookup, first binding wins: the map interface the
source uses on its BTreeMap. -/
def lookupA : List (String × FileHandle) → String → Option FileHandle
  | [], _ => none
  | (k, v) :: rest, key => if k = key then some v else lookupA rest key

/-- Association-list insert replacing an existing binding, as BTreeMap
insert does. -/
def insertA : List (String × FileHandle) → String → FileHandle → List (String × FileHandle)
  | [], key, nv => [(key, nv)]
  | (k, v) :: rest, key, nv =>
      if k = key then (key, nv) :: rest else (k, v) :: insertA rest key nv

/-- Source: the FileWriter struct. -/
structure FileWriter where
  current_channel_name : Option String
  inapt_file_handle : FileHandle
  file_handles : List (String × FileHandle)
deriving DecidableEq

/-- Loop of FileWriter::with_options over the accepted channel names:
creates a handle per name, threading the filesystem, failing fast. -/
def createHandles (env : Env) (log_dir : String) (now : DateTime) :
    List String → FS → List (String × FileHandle) →
      (Except Unit (List (String × FileHandle))) × FS
  | [], fs, acc => (.ok acc, fs)
  | c :: rest, fs, acc =>
      match FileHandle.create env fs log_dir c now with
      | (.error e, fs1) => (.error e, fs1)
      | (.ok h, fs1) => createHandles env log_dir now rest fs1 (insertA acc c h)

/-- Source: FileWriter::with_options, with the three option strings as
arguments and one clock reading for the whole construction. -/
def FileWriter.with_options (env : Env) (fs : FS)
    (log_dir accepted_log_channels inapt_file_name : String) (now : DateTime) :
    (Except Unit FileWriter) × FS :=
  match createHandles env log_dir now (splitComma accepted_log_channels) fs [] with
  | (.error e, fs1) => (.error e, fs1)
  | (.ok handles, fs1) =>
      match FileHandle.create env fs1 log_dir inapt_file_name now with
      | (.error e, fs2) => (.error e, fs2)
      | (.ok h, fs2) =>
          (.ok { current_channel_name := none
                 inapt_file_handle := h
                 file_handles := handles }, fs2)

/-- Source: FileWriter::write. The question-mark early return of the
payload branch is visible here: on a write error the pending channel
slot keeps its value. -/
def FileWriter.write (env : Env) (fs : FS) (w : FileWriter) (now : DateTime)
    (message : String) : (Except Unit Unit) × FS × FileWriter :=
  match w.current_channel_name with
  | none =>
      let channel := trim_end message
      if (lookupA w.file_handles channel).isSome then
        (.ok (), fs, { w with current_channel_name := some channel })
      else
        let res := FileHandle.write_line env fs w.inapt_file_handle now message
        (res.1, res.2.1, { w with inapt_file_handle := res.2.2 })
  | some channel =>
      match lookupA w.file_handles channel with
      | some h =>
          let res := FileHandle.write_line env fs h now message
          match res.1 with
          | .error e =>
              (.error e, res.2.1,
                { w with file_handles := insertA w.file_handles channel res.2.2 })
          | .ok _ =>
              (.ok (), res.2.1,
                { w with file_handles := insertA w.file_handles channel res.2.2
                         current_channel_name := none })
      | none =>
          let res := FileHandle.write_line env fs w.inapt_file_handle now message
          match res.1 with
          | .error e =>
              (.error e, res.2.1, { w with inapt_file_handle := res.2.2 })
          | .ok _ =>
              (.ok (), res.2.1,
                { w with inapt_file_handle := res.2.2, current_channel_name := none })

/-- Boolean form of the router invariant: whenever a channel is
pending, it is a key of the channel map. -/
def routerInvB (w : FileWriter) : Bool :=
  match w.current_channel_name with
  | none => true
  | some c => (lookupA w.file_handles c).isSome

/-! Concrete instants, handles, writers and runs used by the
counterexamples and the witnesses. -/

/-- A concrete instant away from the hour boundary. -/
def dtA : DateTime := ⟨2021, 1, 1, 10, 30, 0⟩

/-- An instant one and a half hours after dtA. -/
def dtB : DateTime := ⟨2021, 1, 1, 12, 0, 0⟩

/-- The path the channel named app gets when created at dtA under logs. -/
def appPath : String := "logs/app_2021-01-01-10-00-00.log"

/-- The path the fallback file gets when created at dtA under logs. -/
def inaptPath : String := "logs/inapt_2021-01-01-10-00-00.log"

/-- The handle produced by creating channel app under logs at dtA. -/
def hAppW : FileHandle :=
  { file_name := "app", log_dir := appPath, last_reopened := dtA, current_path := appPath }

/-- The handle produced by creating the fallback under logs at dtA. -/
def hInaptW : FileHandle :=
  { file_name := "inapt", log_dir := inaptPath, last_reopened := dtA
    current_path := inaptPath }

/-- A router in the selector state knowing exactly the channel app. -/
def wA : FileWriter :=
  { current_channel_name := none, inapt_file_handle := hInaptW
    file_handles := [("app", hAppW)] }

/-- The same router with channel app pending. -/
def wPending : FileWriter :=
  { current_channel_name := some "app", inapt_file_handle := hInaptW
    file_handles := [("app", hAppW)] }

/-- An oracle under which every open succeeds and exactly the write to
the app channel file fails. -/
def envW : Env :=
  { openFails := fun _ => false, writeFails := fun p => p == appPath }

/-- A filesystem already holding bytes at the app channel path. -/
def fsPre : FS := fun p => if p = appPath then some "old" else none

/-- Run for the rotation-path claim: create channel app under logs at
dtA, then write a line at dtB, which is due for rotation; report the
path of the file the handle then points at. -/
def c1RotationPath : Option String :=
  match FileHandle.create envOk fsEmpty "logs" "app" dtA with
  | (.ok h, fs) => some (FileHandle.write_line envOk fs h dtB "x\n").2.2.current_path
  | (.error _, _) => none

/-- Run for the pending-channel claim: build the router, select channel
app, then write a payload whose file write fails; report the pending
slot afterwards and whether the payload call succeeded. -/
def c2FinalState : Option (Option String × Bool) :=
  match FileWriter.with_options envW fsEmpty "logs" "app" "inapt" dtA with
  | (.ok w, fs) =>
      let r1 := FileWriter.write envW fs w dtA "app\n"
      let r2 := FileWriter.write envW r1.2.1 r1.2.2 dtA "hello\n"
      some (r2.2.2.current_channel_name,
        match r2.1 with
        | .ok _ => true
        | .error _ => false)
  | (.error _, _) => none

/-- Run for the alignment claim: the minute field stored by a creation
at dtA, whose minute is thirty. -/
def c4CreatedMinute : Option Nat :=
  match (FileHandle.create envOk fsEmpty "logs" "app" dtA).1 with
  | .ok h => some h.last_reopened.minute
  | .error _ => none

/-! Helper lemmas about the embedded operations. -/

theorem openFileFS_apply_ne (fs : FS) (path p : String) (hp : p ≠ path) :
    openFileFS fs path p = fs p := by
  simp [openFileFS, hp]

theorem writeAll_apply_ne (fs : FS) (path data p : String) (hp : p ≠ path) :
    writeAll fs path data p = fs p := by
  simp [writeAll, hp]

theorem writeAll_apply_self (fs : FS) (path data : String) :
    writeAll fs path data path = some ((fs path).getD "" ++ data) := by
  simp [writeAll]

/-- Writing right after an append-mode open is the same as writing over
the original filesystem: the open preserves the existing bytes. -/
theorem writeAll_openFileFS (fs : FS) (path data : String) :
    writeAll (openFileFS fs path) path data = writeAll fs path data := by
  funext p
  by_cases hp : p = path <;> simp [writeAll, openFileFS, hp]

/-- Case shape of a write_line call: on success the filesystem is the
original one with the line appended at the returned handle's current
path; on failure it is unchanged, or has only suffered an append-mode
open of that path. -/
theorem write_line_shape (env : Env) (fs : FS) (h : FileHandle) (now : DateTime)
    (line : String) :
    ((FileHandle.write_line env fs h now line).1 = .ok () ∧
      (FileHandle.write_line env fs h now line).2.1 =
        writeAll fs (FileHandle.write_line env fs h now line).2.2.current_path line) ∨
    ((FileHandle.write_line env fs h now line).1 = .error () ∧
      ((FileHandle.write_line env fs h now line).2.1 = fs ∨
        (FileHandle.write_line env fs h now line).2.1 =
          openFileFS fs (FileHandle.write_line env fs h now line).2.2.current_path)) := by
  unfold FileHandle.write_line FileHandle.update_current_file FileHandle.open_file
  by_cases h1 : h.new_file_needed now
  · by_cases h2 : env.openFails
        (generate_file_path h.log_dir h.file_name (get_hourly_aligned_date now))
    · simp [h1, h2]
    · by_cases h3 : env.writeFails
          (generate_file_path h.log_dir h.file_name (get_hourly_aligned_date now))
      · simp [h1, h2, h3]
      · simp [h1, h2, h3, writeAll_openFileFS]
  · by_cases h3 : env.writeFails h.current_path
    · simp [h1, h3]
    · simp [h1, h3]

/-- Any path other than the returned handle's current path keeps its
contents across a write_line call, whatever the outcome. -/
theorem write_line_frame (env : Env) (fs : FS) (h : FileHandle) (now : DateTime)
    (line : String) (p : String)
    (hp : p ≠ (FileHandle.write_line env fs h now line).2.2.current_path) :
    (FileHandle.write_line env fs h now line).2.1 p = fs p := by
  rcases write_line_shape env fs h now line with ⟨-, hfs⟩ | ⟨-, hfs | hfs⟩ <;> rw [hfs]
  · exact writeAll_apply_ne _ _ _ _ hp
  · exact openFileFS_apply_ne _ _ _ hp

/-- A successful write_line leaves, at the returned handle's current
path, exactly the bytes previously there followed by the written line. -/
theorem write_line_ok_content (env : Env) (fs : FS) (h : FileHandle) (now : DateTime)
    (line : String)
    (hok : (FileHandle.write_line env fs h now line).1 = .ok ()) :
    (FileHandle.write_line env fs h now line).2.1
        ((FileHandle.write_line env fs h now line).2.2.current_path) =
      some ((fs ((FileHandle.write_line env fs h now line).2.2.current_path)).getD ""
        ++ line) := by
  rcases write_line_shape env fs h now line with ⟨-, hfs⟩ | ⟨he, -⟩
  · rw [hfs]
    exact writeAll_apply_self _ _ _
  · rw [hok] at he
    exact Except.noConfusion he

/-- Looking up the key just inserted finds the inserted handle. -/
theorem lookupA_insertA_self (l : List (String × FileHandle)) (k : String)
    (v : FileHandle) : lookupA (insertA l k v) k = some v := by
  induction l with
  | nil => simp [insertA, lookupA]
  | cons a rest ih =>
      obtain ⟨ak, av⟩ := a
      by_cases hk : ak = k
      · simp [insertA, hk, lookupA]
      · simp [insertA, hk, lookupA, ih]

/-- Presence of a key after an insert: the inserted key, or any key that
was already present. -/
theorem lookupA_insertA_isSome (l : List (String × FileHandle)) (k : String)
    (v : FileHandle) (c : String) :
    (lookupA (insertA l k v) c).isSome = (decide (k = c) || (lookupA l c).isSome) := by
  induction l with
  | nil =>
      by_cases hc : k = c <;> simp [insertA, lookupA, hc]
  | cons a rest ih =>
      obtain ⟨ak, av⟩ := a
      by_cases hk : ak = k
      · by_cases hc : ak = c
        · have hkc : k = c := hk.symm.trans hc
          simp [insertA, lookupA, hk, hc, hkc]
        · have hkc : ¬ k = c := fun he => hc (hk.trans he)
          simp [insertA, lookupA, hk, hc, hkc]
      · by_cases hc : ak = c
        · have hck : ¬ c = k := fun he => hk (hc.trans he)
          simp [insertA, lookupA, hk, hc, hck]
        · simp [insertA, lookupA, hk, hc, ih]

/-- The first element surviving dropWhile falsifies the predicate. -/
theorem head_dropWhile_false (p : Char → Bool) (l : List Char) (c : Char)
    (h : (l.dropWhile p).head? = some c) : p c = false := by
  induction l with
  | nil =>
      rw [List.dropWhile_nil] at h
      simp at h
  | cons a t ih =>
      rw [List.dropWhile_cons] at h
      by_cases hp : p a
      · exact ih (by simpa [hp] using h)
      · simp [hp] at h
        subst h
        exact Bool.eq_false_iff.mpr hp

theorem openFileFS_apply_self (fs : FS) (path : String) :
    openFileFS fs path path = some ((fs path).getD "") := by
  simp [openFileFS]

/-- Routing in the payload state with a known pending channel: the call
delegates to that channel's handle, reinserts the updated handle, keeps
the fallback handle, and clears the pending slot exactly on success. -/
theorem write_payload_known (env : Env) (fs : FS) (w : FileWriter) (now : DateTime)
    (msg c : String) (h : FileHandle)
    (hp : w.current_channel_name = some c)
    (hl : lookupA w.file_handles c = some h) :
    (FileWriter.write env fs w now msg).1 = (FileHandle.write_line env fs h now msg).1 ∧
    (FileWriter.write env fs w now msg).2.1 = (FileHandle.write_line env fs h now msg).2.1 ∧
    (FileWriter.write env fs w now msg).2.2.inapt_file_handle = w.inapt_file_handle ∧
    (FileWriter.write env fs w now msg).2.2.file_handles =
      insertA w.file_handles c (FileHandle.write_line env fs h now msg).2.2 ∧
    ((FileWriter.write env fs w now msg).1 = .ok () →
      (FileWriter.write env fs w now msg).2.2.current_channel_name = none) ∧
    ((FileWriter.write env fs w now msg).1 = .error () →
      (FileWriter.write env fs w now msg).2.2.current_channel_name = some c) := by
  unfold FileWriter.write
  rw [hp]
  dsimp only
  rw [hl]
  dsimp only
  rcases hres : (FileHandle.write_line env fs h now msg).1 with e | u
  · simp [hres]
  · simp [hres]

/-- A creation fails exactly when the oracle fails the open of the path
computed for the hour-aligned creation instant. -/
theorem create_fst_error_iff (env : Env) (fs : FS) (dir name : String) (now : DateTime) :
    (FileHandle.create env fs dir name now).1 = .error () ↔
      env.openFails (generate_file_path dir name (get_hourly_aligned_date now)) = true := by
  unfold FileHandle.create FileHandle.open_file
  by_cases hc : env.openFails (generate_file_path dir name (get_hourly_aligned_date now)) <;>
    simp [hc]

/-- The channel-creation loop fails exactly when the open of some listed
channel's path fails. -/
theorem createHandles_error_iff (env : Env) (log_dir : String) (now : DateTime)
    (names : List String) : ∀ (fs : FS) (acc : List (String × FileHandle)),
    (createHandles env log_dir now names fs acc).1 = .error () ↔
      ∃ c ∈ names,
        env.openFails (generate_file_path log_dir c (get_hourly_aligned_date now)) = true := by
  induction names with
  | nil => intro fs acc; simp [createHandles]
  | cons c0 rest ih =>
      intro fs acc
      unfold createHandles FileHandle.create FileHandle.open_file
      by_cases hc : env.openFails (generate_file_path log_dir c0 (get_hourly_aligned_date now))
      · simp [hc]
      · simp [hc, ih]

/-- After a successful channel-creation loop, every listed name, and
every key already present in the accumulator, is a key of the result. -/
theorem createHandles_ok_lookup (env : Env) (log_dir : String) (now : DateTime)
    (names : List String) :
    ∀ (fs : FS) (acc handles : List (String × FileHandle)) (fs' : FS),
      createHandles env log_dir now names fs acc = (.ok handles, fs') →
      ∀ c, c ∈ names ∨ (lookupA acc c).isSome = true →
        (lookupA handles c).isSome = true := by
  induction names with
  | nil =>
      intro fs acc handles fs' heq c hc
      simp [createHandles] at heq
      rcases hc with hc | hc
      · simp at hc
      · rw [← heq.1]
        exact hc
  | cons c0 rest ih =>
      intro fs acc handles fs' heq c hc
      unfold createHandles FileHandle.create FileHandle.open_file at heq
      by_cases hc0 : env.openFails (generate_file_path log_dir c0 (get_hourly_aligned_date now))
      · simp [hc0] at heq
      · simp only [hc0, if_false, Bool.false_eq_true] at heq
        refine ih _ _ _ _ heq c ?_
        rcases hc with hmem | hacc
        · rcases List.mem_cons.mp hmem with rfl | hmem'
          · right
            rw [lookupA_insertA_isSome]
            simp
          · left
            exact hmem'
        · right
          rw [lookupA_insertA_isSome]
          simp [hacc]

/-- No string survives trim_end with a trailing white-space character,
so no line can trim to a name whose last character is white-space. -/
theorem trim_end_ne_of_last_ws (name : String) (c : Char)
    (hlast : name.data.getLast? = some c) (hws : isRustWhitespace c = true)
    (line : String) : trim_end line ≠ name := by
  intro he
  have hdata : (line.data.reverse.dropWhile isRustWhitespace).reverse = name.data := by
    rw [← he]
    rfl
  rw [← hdata, List.getLast?_reverse] at hlast
  have hfalse := head_dropWhile_false isRustWhitespace _ _ hlast
  rw [hws] at hfalse
  exact Bool.noConfusion hfalse

/-- The boolean date comparison agrees with its propositional reading. -/
theorem dateGt_iff_DateLater (a b : DateTime) : dateGt a b = true ↔ DateLater a b := by
  simp [dateGt, DateLater]

/-! Claim theorems. -/

/-- C1: the rotation half of the claim fails on the code. Creating
channel app under the directory logs at dtA and writing at dtB, which is
due for rotation, opens the file at a path that nests the new file name
under the previous file's full path instead of under the configured
directory, because create stores the full file path in the log_dir
field; the path the claim requires is the second string, and the two
differ. -/
theorem C1_rotation_path_nested :
    c1RotationPath =
      some "logs/app_2021-01-01-10-00-00.log/app_2021-01-01-12-00-00.log" ∧
    "logs/app_2021-01-01-10-00-00.log/app_2021-01-01-12-00-00.log" ≠
      "logs/app_2021-01-01-12-00-00.log" :=
  ⟨rfl, by decide⟩

/-- C2 counterexample: with the router built over channel app and an
oracle failing exactly the write to app's file, selecting app and then
writing a payload returns an error while the pending slot still holds
app, so the slot is not cleared regardless of the outcome as the claim
states. -/
theorem C2_counterexample : c2FinalState = some (some "app", false) := rfl

/-- C2 amended: in the payload state the pending channel is cleared
exactly when the payload write succeeds; on a write error the error
propagates and the pending slot keeps its channel, so the next line is
treated as another payload for the same channel. -/
theorem C2_pending_cleared_only_on_success (env : Env) (fs : FS) (w : FileWriter)
    (now : DateTime) (msg : String) (c : String)
    (hp : w.current_channel_name = some c) :
    ((FileWriter.write env fs w now msg).1 = .ok () →
      (FileWriter.write env fs w now msg).2.2.current_channel_name = none) ∧
    ((FileWriter.write env fs w now msg).1 = .error () →
      (FileWriter.write env fs w now msg).2.2.current_channel_name = some c) := by
  unfold FileWriter.write
  rw [hp]
  rcases hl : lookupA w.file_handles c with _ | h
  · rcases hres : (FileHandle.write_line env fs w.inapt_file_handle now msg).1 with e | u
    · simp [hl, hres, hp]
    · simp [hl, hres]
  · rcases hres : (FileHandle.write_line env fs h now msg).1 with e | u
    · simp [hl, hres, hp]
    · simp [hl, hres]

/-- C2 witness: the amended statement at the concrete failing run. -/
theorem C2_amended_witness :
    ((FileWriter.write envW fsEmpty wPending dtA "hello\n").1 = .ok () →
      (FileWriter.write envW fsEmpty wPending dtA "hello\n").2.2.current_channel_name
        = none) ∧
    ((FileWriter.write envW fsEmpty wPending dtA "hello\n").1 = .error () →
      (FileWriter.write envW fsEmpty wPending dtA "hello\n").2.2.current_channel_name
        = some "app") :=
  C2_pending_cleared_only_on_success envW fsEmpty wPending dtA "hello\n" "app" rfl

/-- C4 counterexample: a creation at dtA, whose minute is thirty, stores
a last-rotation timestamp whose minute is thirty, not zero, so the
stored timestamp is not hour-aligned from the moment of creation. -/
theorem C4_counterexample : c4CreatedMinute = some 30 ∧ (30 : Nat) ≠ 0 :=
  ⟨rfl, by decide⟩

/-- C4 amended: at creation the stored timestamp is the raw creation
instant, and the opened path is derived deterministically from the
logical name and the hour-alignment of that stored timestamp; after
every successful rotation the stored timestamp is hour-aligned with
minute and second zero, and the opened path is derived deterministically
from the logical name and that stored timestamp. -/
theorem C4_alignment_amended :
    (∀ (env : Env) (fs : FS) (dir name : String) (now : DateTime) (h : FileHandle),
      (FileHandle.create env fs dir name now).1 = .ok h →
      h.last_reopened = now ∧
      h.current_path =
        generate_file_path dir name (get_hourly_aligned_date h.last_reopened)) ∧
    (∀ (env : Env) (fs : FS) (h : FileHandle) (now : DateTime),
      h.new_file_needed now = true →
      (FileHandle.update_current_file env fs h now).1 = .ok () →
      (FileHandle.update_current_file env fs h now).2.2.last_reopened.minute = 0 ∧
      (FileHandle.update_current_file env fs h now).2.2.last_reopened.second = 0 ∧
      (FileHandle.update_current_file env fs h now).2.2.current_path =
        generate_file_path h.log_dir h.file_name
          ((FileHandle.update_current_file env fs h now).2.2.last_reopened)) := by
  constructor
  · intro env fs dir name now h hok
    unfold FileHandle.create FileHandle.open_file at hok
    by_cases hc : env.openFails (generate_file_path dir name (get_hourly_aligned_date now))
    · simp [hc] at hok
    · simp [hc] at hok
      subst hok
      exact ⟨rfl, rfl⟩
  · intro env fs h now hneed hok
    unfold FileHandle.update_current_file FileHandle.open_file at hok ⊢
    simp only [hneed, if_true] at hok ⊢
    by_cases hc : env.openFails
        (generate_file_path h.log_dir h.file_name (get_hourly_aligned_date now))
    · simp [hc] at hok
    · simp only [hc, Bool.false_eq_true, if_false]
      refine ⟨?_, ?_, ?_⟩ <;> trivial

/-- C4 witness: the creation part of the amended statement at the
concrete creation of channel app at dtA. -/
theorem C4_amended_witness :
    hAppW.last_reopened = dtA ∧
    hAppW.current_path =
      generate_file_path "logs" "app" (get_hourly_aligned_date hAppW.last_reopened) :=
  C4_alignment_amended.1 envOk fsEmpty "logs" "app" dtA hAppW rfl

/-- C3: the rotation-due predicate returns true exactly when the
current date is strictly later than the last-rotation date and the
current hour of day is strictly greater than the last-rotation hour of
day, or strictly more than one hour of elapsed time has passed since
the last rotation. -/
theorem C3_rotation_due_iff (h : FileHandle) (now : DateTime) :
    h.new_file_needed now = true ↔
      ((DateLater now h.last_reopened ∧ h.last_reopened.hour < now.hour) ∨
        (toSeconds h.last_reopened : Int) + 3600 < (toSeconds now : Int)) := by
  have harith : ((3600 : Int) < (toSeconds now : Int) - (toSeconds h.last_reopened : Int)) ↔
      ((toSeconds h.last_reopened : Int) + 3600 < (toSeconds now : Int)) := by
    omega
  rw [← harith]
  unfold FileHandle.new_file_needed
  by_cases h1 : dateGt now h.last_reopened <;>
    by_cases h2 : h.last_reopened.hour < now.hour <;>
      by_cases h3 : (3600 : Int) < (toSeconds now : Int) - (toSeconds h.last_reopened : Int) <;>
        simp [h1, h2, h3, ← dateGt_iff_DateLater]

/-- C5: in the selector state, a line whose form with trailing
white-space trimmed matches no configured channel leaves the pending
slot empty and the channel map unchanged, so the next line is again a
selector attempt, and, when the fallback write succeeds, the untrimmed
line is appended verbatim to the fallback file's current path. -/
theorem C5_unknown_selector_to_fallback (env : Env) (fs : FS) (w : FileWriter)
    (now : DateTime) (message : String)
    (hsel : w.current_channel_name = none)
    (hmiss : lookupA w.file_handles (trim_end message) = none) :
    (FileWriter.write env fs w now message).2.2.current_channel_name = none ∧
    (FileWriter.write env fs w now message).2.2.file_handles = w.file_handles ∧
    ((FileWriter.write env fs w now message).1 = .ok () →
      (FileWriter.write env fs w now message).2.1
          ((FileWriter.write env fs w now message).2.2.inapt_file_handle.current_path) =
        some ((fs ((FileWriter.write env fs w now message
          ).2.2.inapt_file_handle.current_path)).getD "" ++ message)) := by
  unfold FileWriter.write
  rw [hsel]
  simp only [hmiss, Option.isSome_none, Bool.false_eq_true, if_false]
  refine ⟨trivial, trivial, fun hok => ?_⟩
  exact write_line_ok_content env fs w.inapt_file_handle now message hok

/-- C5 witness: the pending slot stays empty at a concrete unknown
selector line. -/
theorem C5_witness :
    (FileWriter.write envOk fsEmpty wA dtA "bogus\n").2.2.current_channel_name = none :=
  (C5_unknown_selector_to_fallback envOk fsEmpty wA dtA "bogus\n" rfl rfl).1

/-- C6: a two-line record whose first line trims to a configured
channel: the first call performs no write at all, returning the
filesystem untouched and only recording the pending channel, and the
second call, when its write succeeds, clears the pending slot, keeps
the fallback handle, and appends exactly the second line's bytes to the
selected channel's current file, every other path, in particular the
fallback file's, keeping its contents. -/
theorem C6_roundtrip (env : Env) (fs : FS) (w : FileWriter) (now1 now2 : DateTime)
    (line1 line2 : String) (h : FileHandle)
    (hsel : w.current_channel_name = none)
    (hfound : lookupA w.file_handles (trim_end line1) = some h)
    (hok2 : (FileWriter.write env fs
        { w with current_channel_name := some (trim_end line1) } now2 line2).1 = .ok ()) :
    FileWriter.write env fs w now1 line1 =
      (.ok (), fs, { w with current_channel_name := some (trim_end line1) }) ∧
    (FileWriter.write env fs { w with current_channel_name := some (trim_end line1) }
        now2 line2).2.2.current_channel_name = none ∧
    (FileWriter.write env fs { w with current_channel_name := some (trim_end line1) }
        now2 line2).2.2.inapt_file_handle = w.inapt_file_handle ∧
    ∃ h2,
      lookupA ((FileWriter.write env fs
          { w with current_channel_name := some (trim_end line1) }
          now2 line2).2.2.file_handles) (trim_end line1) = some h2 ∧
      (FileWriter.write env fs { w with current_channel_name := some (trim_end line1) }
          now2 line2).2.1 h2.current_path =
        some ((fs h2.current_path).getD "" ++ line2) ∧
      ∀ p, p ≠ h2.current_path →
        (FileWriter.write env fs { w with current_channel_name := some (trim_end line1) }
            now2 line2).2.1 p = fs p := by
  have pk := write_payload_known env fs
    { w with current_channel_name := some (trim_end line1) } now2 line2
    (trim_end line1) h rfl hfound
  have hlok : (FileHandle.write_line env fs h now2 line2).1 = .ok () :=
    (pk.1.symm.trans hok2)
  refine ⟨?_, pk.2.2.2.2.1 hok2, pk.2.2.1, ?_⟩
  · unfold FileWriter.write
    rw [hsel]
    have hiss : (lookupA w.file_handles (trim_end line1)).isSome = true := by
      rw [hfound]
      rfl
    simp [hiss]
  · refine ⟨(FileHandle.write_line env fs h now2 line2).2.2, ?_, ?_, ?_⟩
    · rw [pk.2.2.2.1]
      exact lookupA_insertA_self w.file_handles (trim_end line1) _
    · rw [pk.2.1]
      exact write_line_ok_content env fs h now2 line2 hlok
    · intro p hp
      rw [pk.2.1]
      exact write_line_frame env fs h now2 line2 p hp

/-- C6 witness: after a concrete selector and payload the pending slot
is clear again. -/
theorem C6_witness :
    (FileWriter.write envOk fsPre
        { wA with current_channel_name := some (trim_end "app\n") }
        dtA "hello\n").2.2.current_channel_name = none :=
  (C6_roundtrip envOk fsPre wA dtA dtA "app\n" "hello\n" hAppW rfl rfl rfl).2.1

/-- C7: opens are create-and-append and never truncate: after a
successful creation the computed path holds exactly the bytes it held
before, empty when it was absent, every other path is untouched, and
any later successful write through the handle appends the written line
after the bytes then present at the written file's path, also when the
write first rotates onto a pre-existing file. -/
theorem C7_append_not_truncate (env : Env) (fs : FS) (dir name : String)
    (now : DateTime) (h : FileHandle)
    (hcreate : (FileHandle.create env fs dir name now).1 = .ok h) :
    (FileHandle.create env fs dir name now).2 h.current_path =
      some ((fs h.current_path).getD "") ∧
    (∀ p, p ≠ h.current_path → (FileHandle.create env fs dir name now).2 p = fs p) ∧
    (∀ (fs1 : FS) (now2 : DateTime) (line : String),
      (FileHandle.write_line env fs1 h now2 line).1 = .ok () →
      (FileHandle.write_line env fs1 h now2 line).2.1
          ((FileHandle.write_line env fs1 h now2 line).2.2.current_path) =
        some ((fs1 ((FileHandle.write_line env fs1 h now2 line).2.2.current_path)).getD ""
          ++ line)) := by
  have h3 := fun (fs1 : FS) (now2 : DateTime) (line : String) hok =>
    write_line_ok_content env fs1 h now2 line hok
  unfold FileHandle.create FileHandle.open_file at hcreate ⊢
  by_cases hc : env.openFails (generate_file_path dir name (get_hourly_aligned_date now))
  · simp [hc] at hcreate
  · simp [hc] at hcreate
    subst hcreate
    simp only [hc, Bool.false_eq_true, if_false]
    refine ⟨openFileFS_apply_self fs _, ?_, h3⟩
    intro p hp
    exact openFileFS_apply_ne fs _ p hp

/-- C7 witness: creating over a path already holding bytes keeps them. -/
theorem C7_witness :
    (FileHandle.create envOk fsPre "logs" "app" dtA).2 hAppW.current_path =
      some ((fsPre hAppW.current_path).getD "") :=
  (C7_append_not_truncate envOk fsPre "logs" "app" dtA hAppW rfl).1

/-- C8: router construction is fail-fast: it returns an error exactly
when the open of some configured channel's path, or of the fallback's
path, fails, and whenever it returns a router that router has a handle
under every configured channel name and an empty pending slot, so no
partial router is ever produced. -/
theorem C8_failfast_construction (env : Env) (fs : FS)
    (log_dir channels inapt : String) (now : DateTime) :
    ((FileWriter.with_options env fs log_dir channels inapt now).1 = .error () ↔
      ((∃ c ∈ splitComma channels,
          env.openFails (generate_file_path log_dir c (get_hourly_aligned_date now))
            = true) ∨
        env.openFails (generate_file_path log_dir inapt (get_hourly_aligned_date now))
          = true)) ∧
    (∀ w, (FileWriter.with_options env fs log_dir channels inapt now).1 = .ok w →
      w.current_channel_name = none ∧
      ∀ c ∈ splitComma channels, (lookupA w.file_handles c).isSome = true) := by
  have hiff := createHandles_error_iff env log_dir now (splitComma channels) fs []
  unfold FileWriter.with_options
  rcases hch : createHandles env log_dir now (splitComma channels) fs [] with ⟨r1, fs1⟩
  rw [hch] at hiff
  cases r1 with
  | error e =>
      dsimp only
      cases e
      refine ⟨⟨fun _ => Or.inl (hiff.mp rfl), fun _ => rfl⟩, ?_⟩
      intro w hw
      exact Except.noConfusion hw
  | ok handles =>
      dsimp only
      have hnoch : ¬ ∃ c ∈ splitComma channels,
          env.openFails (generate_file_path log_dir c (get_hourly_aligned_date now))
            = true := by
        intro hex
        exact Except.noConfusion (hiff.mpr hex)
      have hin := create_fst_error_iff env fs1 log_dir inapt now
      rcases hcr : FileHandle.create env fs1 log_dir inapt now with ⟨r2, fs2⟩
      rw [hcr] at hin
      cases r2 with
      | error e2 =>
          dsimp only
          cases e2
          refine ⟨⟨fun _ => Or.inr (hin.mp rfl), fun _ => rfl⟩, ?_⟩
          intro w hw
          exact Except.noConfusion hw
      | ok hbar =>
          dsimp only
          constructor
          · constructor
            · intro he
              exact Except.noConfusion he
            · intro hor
              rcases hor with hex | hi
              · exact absurd hex hnoch
              · exact absurd (hin.mpr hi) (fun hx => Except.noConfusion hx)
          · intro w hw
            injection hw with hw
            subst hw
            refine ⟨rfl, ?_⟩
            intro ch hc
            exact createHandles_ok_lookup env log_dir now (splitComma channels)
              fs [] handles fs1 hch ch (Or.inl hc)

/-- C8 witness: the concrete construction over the single channel app
yields a router holding a handle under the key app. -/
theorem C8_witness : (lookupA wA.file_handles "app").isSome = true :=
  ((C8_failfast_construction envOk fsEmpty "logs" "app" "inapt" dtA).2 wA rfl).2
    "app" (by decide)

/-- C9: reachability invariant of the router: construction establishes
that any pending channel is a key of the channel map, every write call
preserves this, and under it the payload branch always finds the
selected channel's own handle, so the fallback default of the lookup is
never used: the fallback handle is untouched and any path whose
contents change is the selected channel handle's current path. -/
theorem C9_pending_channel_always_known :
    (∀ (env : Env) (fs : FS) (log_dir channels inapt : String) (now : DateTime)
        (w : FileWriter),
      (FileWriter.with_options env fs log_dir channels inapt now).1 = .ok w →
      routerInvB w = true) ∧
    (∀ (env : Env) (fs : FS) (w : FileWriter) (now : DateTime) (msg : String),
      routerInvB w = true →
      routerInvB (FileWriter.write env fs w now msg).2.2 = true) ∧
    (∀ (env : Env) (fs : FS) (w : FileWriter) (now : DateTime) (msg c : String),
      w.current_channel_name = some c →
      routerInvB w = true →
      (lookupA w.file_handles c).isSome = true ∧
      (FileWriter.write env fs w now msg).2.2.inapt_file_handle = w.inapt_file_handle ∧
      (∀ p, (FileWriter.write env fs w now msg).2.1 p ≠ fs p →
        ∃ h2, lookupA (FileWriter.write env fs w now msg).2.2.file_handles c = some h2 ∧
          p = h2.current_path)) := by
  refine ⟨?_, ?_, ?_⟩
  · intro env fs log_dir channels inapt now w hw
    unfold FileWriter.with_options at hw
    rcases hch : createHandles env log_dir now (splitComma channels) fs [] with ⟨r1, fs1⟩
    rw [hch] at hw
    cases r1 with
    | error e =>
        dsimp only at hw
        exact Except.noConfusion hw
    | ok handles =>
        dsimp only at hw
        rcases hcr : FileHandle.create env fs1 log_dir inapt now with ⟨r2, fs2⟩
        rw [hcr] at hw
        cases r2 with
        | error e2 =>
            dsimp only at hw
            exact Except.noConfusion hw
        | ok hbar =>
            dsimp only at hw
            injection hw with hw
            subst hw
            rfl
  · intro env fs w now msg hinv
    rcases hccn : w.current_channel_name with _ | c
    · unfold FileWriter.write
      rw [hccn]
      dsimp only
      by_cases hiss : (lookupA w.file_handles (trim_end msg)).isSome = true
      · rw [if_pos hiss]
        simp [routerInvB, hiss]
      · rw [if_neg hiss]
        simp [routerInvB, hccn]
    · have hsome : (lookupA w.file_handles c).isSome = true := by
        unfold routerInvB at hinv
        rw [hccn] at hinv
        exact hinv
      obtain ⟨h, hl⟩ := Option.isSome_iff_exists.mp hsome
      have pk := write_payload_known env fs w now msg c h hccn hl
      unfold routerInvB
      rcases hres : (FileWriter.write env fs w now msg).1 with e | u
      · cases e
        rw [pk.2.2.2.2.2 hres]
        dsimp only
        rw [pk.2.2.2.1, lookupA_insertA_isSome]
        simp
      · rw [pk.2.2.2.2.1 hres]
  · intro env fs w now msg c hp hinv
    have hsome : (lookupA w.file_handles c).isSome = true := by
      unfold routerInvB at hinv
      rw [hp] at hinv
      exact hinv
    obtain ⟨h, hl⟩ := Option.isSome_iff_exists.mp hsome
    have pk := write_payload_known env fs w now msg c h hp hl
    refine ⟨hsome, pk.2.2.1, ?_⟩
    intro p hne
    refine ⟨(FileHandle.write_line env fs h now msg).2.2, ?_, ?_⟩
    · rw [pk.2.2.2.1]
      exact lookupA_insertA_self _ _ _
    · by_contra hpe
      apply hne
      rw [pk.2.1]
      exact write_line_frame env fs h now msg p hpe

/-- C9 witness: the invariant holds after a concrete selector write on
the concretely constructed router. -/
theorem C9_witness :
    routerInvB (FileWriter.write envOk fsEmpty wA dtA "app\n").2.2 = true :=
  C9_pending_channel_always_known.2.1 envOk fsEmpty wA dtA "app\n" rfl

/-- C10: configured channel names are the comma-separated fields taken
verbatim, while every selector line is trimmed of trailing white-space
before matching, so a configured name ending in white-space is stored
as a key of the channel map yet can never be selected: no line trims to
it and the pending slot can never come to hold it; such lines match
some other channel or fall through to the fallback. -/
theorem C10_ws_channel_unselectable (name : String) (c : Char)
    (hlast : name.data.getLast? = some c) (hws : isRustWhitespace c = true) :
    (∀ line : String, trim_end line ≠ name) ∧
    (∀ (env : Env) (fs : FS) (w : FileWriter) (now : DateTime) (msg : String),
      w.current_channel_name = none →
      (FileWriter.write env fs w now msg).2.2.current_channel_name ≠ some name) ∧
    (∀ (env : Env) (fs : FS) (log_dir channels inapt : String) (now : DateTime)
        (w : FileWriter),
      (FileWriter.with_options env fs log_dir channels inapt now).1 = .ok w →
      name ∈ splitComma channels →
      (lookupA w.file_handles name).isSome = true) := by
  have htrim : ∀ line : String, trim_end line ≠ name :=
    fun line => trim_end_ne_of_last_ws name c hlast hws line
  refine ⟨htrim, ?_, ?_⟩
  · intro env fs w now msg hsel
    unfold FileWriter.write
    rw [hsel]
    dsimp only
    by_cases hiss : (lookupA w.file_handles (trim_end msg)).isSome = true
    · rw [if_pos hiss]
      dsimp only
      intro he
      injection he with he
      exact htrim msg he
    · rw [if_neg hiss]
      simp [hsel]
  · intro env fs log_dir channels inapt now w hw hmem
    unfold FileWriter.with_options at hw
    rcases hch : createHandles env log_dir now (splitComma channels) fs [] with ⟨r1, fs1⟩
    rw [hch] at hw
    cases r1 with
    | error e =>
        dsimp only at hw
        exact Except.noConfusion hw
    | ok handles =>
        dsimp only at hw
        rcases hcr : FileHandle.create env fs1 log_dir inapt now with ⟨r2, fs2⟩
        rw [hcr] at hw
        cases r2 with
        | error e2 =>
            dsimp only at hw
            exact Except.noConfusion hw
        | ok hbar =>
            dsimp only at hw
            injection hw with hw
            subst hw
            exact createHandles_ok_lookup env log_dir now (splitComma channels)
              fs [] handles fs1 hch name (Or.inl hmem)

/-- C10 witness: no line trims to a concrete name with a trailing
space. -/
theorem C10_witness : trim_end "app \n" ≠ "app " :=
  (C10_ws_channel_unselectable "app " ' ' (by decide) (by decide)).1 "app \n"

end LogRevolve
